import Mathlib

/-!
# Verification of the PhonePe-Insights dashboard (src/app1.py)

A shallow embedding, in Lean 4, of the data-normalization and aggregation
logic of the Streamlit dashboard in src/app1.py, together with theorems that
settle the frozen claims about it.

Modelling conventions:
* Python strings are `List Char`; Python `str.lower()` is modelled per
  character by core Lean's `Char.toLower` (exactly the ASCII rule
  "shift code points 65..90 up by 32" that applies to all names occurring
  in this repository); `str.strip()` drops the standard whitespace
  characters (space, tab, LF, CR, VT, FF) from both ends.
* A pandas cell that may hold a non-string (None / NaN / a number) is an
  `Option (List Char)`: `none` stands for any non-string value.  The pandas
  string accessor `.str.lower()` / `.str.strip()` turns a non-string cell
  into NaN, and `Series.replace` leaves NaN alone, so the whole tabular
  normalization maps `none` to `none`.
* pandas/NumPy float division is modelled by `PFloat`: an exact rational
  together with the special values `posInf`, `negInf` and `nan`.  For the
  inputs in question (rationals), `a / 0` is `nan` when `a = 0`, `posInf`
  when `a > 0`, `negInf` when `a < 0`; this classification is exact and
  independent of binary rounding.  `Series.fillna(0)` replaces `nan`
  (and only `nan`) by `0`.
* A `DataFrame` is a `List` of rows; `groupby(K).agg(sum)` produces one
  output row per distinct key, carrying the sums of the selected columns
  over the rows with that key (pandas additionally sorts the group keys,
  which affects none of the claims proved here: sums are order independent,
  and the ranking claims quantify over an arbitrary input order).
* `DataFrame.nlargest(n, col)` is, per the pandas contract with the default
  `keep="first"`, a stable descending sort by `col` truncated to `n` rows;
  it is modelled by a stable descending insertion sort followed by `take n`.
-/

namespace Phonepe

/-! ## Python string primitives (`lower`, `strip`) on `List Char` -/

/-- Python whitespace for `str.strip()` (ASCII part): space, tab, LF, CR,
vertical tab, form feed. -/
def pyIsSpace (c : Char) : Bool :=
  c.toNat = 32 || c.toNat = 9 || c.toNat = 10 || c.toNat = 13 ||
    c.toNat = 11 || c.toNat = 12

/-- Python `str.lower()` (ASCII): lowercase every character. -/
def pyLower (s : List Char) : List Char := s.map Char.toLower

/-- Drop leading whitespace. -/
def lstripCh (s : List Char) : List Char := s.dropWhile pyIsSpace

/-- Drop trailing whitespace. -/
def rstripCh (s : List Char) : List Char := (s.reverse.dropWhile pyIsSpace).reverse

/-- Python `str.strip()`: drop whitespace from both ends. -/
def pyStrip (s : List Char) : List Char := rstripCh (lstripCh s)

/-- Embeds `s.lower().strip()`, the shared first step of both normalization paths
(src/app1.py line 51 and line 79). -/
def lowerStrip (s : List Char) : List Char := pyStrip (pyLower s)

/-! ## The two name-normalization paths -/

/-- The `state_mappings` dict of `load_table_data` (src/app1.py lines 82-86),
applied by `Series.replace`: an exact, full-string rewrite.  The three keys
are pairwise distinct so the order of the tests cannot matter. -/
def state_mappings_apply (s : List Char) : List Char :=
  if s = ("andaman and nicobar".toList) then ("andaman & nicobar islands".toList)
  else if s = ("dadra and nagar haveli and daman and diu".toList) then
    ("dadra & nagar haveli & daman & diu".toList)
  else if s = ("orissa".toList) then ("odisha".toList)
  else s

/-- The tabular normalization path for one string cell of the `States`
column (src/app1.py lines 79-87): lowercase, strip, then the
`state_mappings` rewrite. -/
def tableKey (s : List Char) : List Char := state_mappings_apply (lowerStrip s)

/-- One whole cell of the `States` column.  `.str.lower()` sends any
non-string cell (`none`) to NaN (`none`), `.str.strip()` and
`Series.replace` keep NaN, so only string cells are rewritten. -/
def tableCell (v : Option (List Char)) : Option (List Char) := v.map tableKey

/-- The hardcoded Odisha fix of `load_geojson_data`
(src/app1.py lines 54-55). -/
def odishaFix (s : List Char) : List Char :=
  if s = ("orissa".toList) then ("odisha".toList) else s

/-- The boundary-geometry normalization path for a string `NAME_1`
(src/app1.py lines 51-57): lowercase, strip, Odisha fix. -/
def geoKey (s : List Char) : List Char := odishaFix (lowerStrip s)

/-- A Python value that is either a string or something else; the `NAME_1`
property of a GeoJSON feature is read as such a value. -/
inductive PyVal where
  | str (s : List Char)
  | nonStr
deriving DecidableEq

/-- The `State_Name` computed by `load_geojson_data` for one feature
(src/app1.py lines 48-59): the geo key of `NAME_1` when it is a string,
and the empty string otherwise. -/
def geoStateName : PyVal → List Char
  | PyVal.str s => geoKey s
  | PyVal.nonStr => []

/-! ## Data model: table rows

One structure per table schema actually touched by the claims:
`aggregated_transaction` (case study 1 and the dashboard),
`map_transaction` (case study 4), `map_user` (case study 5).
Numeric columns are exact rationals; year and quarter are integers. -/

structure TxRow where
  State : List Char
  Years : Int
  Quarter : Int
  Transaction_type : List Char
  Transaction_count : Rat
  Transaction_amount : Rat
deriving DecidableEq

structure MapTxRow where
  State : List Char
  Years : Int
  Quarter : Int
  Transaction_count : Rat
  Transaction_amount : Rat
deriving DecidableEq

structure MapUserRow where
  State : List Char
  District : List Char
  Years : Int
  Quarter : Int
  RegisteredUsers : Rat
  AppOpens : Rat
deriving DecidableEq

/-! ## The aggregation layer -/

/-- The distinct values of the grouping column, in order of first
occurrence.  (pandas `groupby` additionally sorts the group keys; none of
the claims proved below depend on the output order of the groups.) -/
def distinctKeys {α κ : Type} [DecidableEq κ] (key : α → κ) (rows : List α) : List κ :=
  (rows.map key).dedup

/-- The `sum` reduction of one numeric column over a row set. -/
def sumCol {α : Type} (col : α → Rat) (rows : List α) : Rat :=
  (rows.map col).sum

/-- Embeds `df.groupby(K).agg({c1: "sum", c2: "sum"}).reset_index()`: one output
row per distinct key, carrying the sums of the two selected columns over
the rows with that key. -/
def groupAgg2 {α κ : Type} [DecidableEq κ] (key : α → κ) (c1 c2 : α → Rat)
    (rows : List α) : List (κ × Rat × Rat) :=
  (distinctKeys key rows).map fun k =>
    (k, sumCol c1 (rows.filter fun r => decide (key r = k)),
        sumCol c2 (rows.filter fun r => decide (key r = k)))

/-- Embeds `df.groupby(K)[c].sum().reset_index()`: the one-column variant. -/
def groupAgg1 {α κ : Type} [DecidableEq κ] (key : α → κ) (c : α → Rat)
    (rows : List α) : List (κ × Rat) :=
  (distinctKeys key rows).map fun k =>
    (k, sumCol c (rows.filter fun r => decide (key r = k)))

/-- The (year, quarter) filter of case study 1 (src/app1.py lines 310-313):
exact match on both columns. -/
def filtered_data (rows : List TxRow) (year quarter : Int) : List TxRow :=
  rows.filter fun r => decide (r.Years = year ∧ r.Quarter = quarter)

/-- Embeds `state_summary` (src/app1.py lines 317-320): group the filtered
transactions by state and sum amount and count. -/
def state_summary (rows : List TxRow) : List (List Char × Rat × Rat) :=
  groupAgg2 (fun r => r.State) (fun r => r.Transaction_amount)
    (fun r => r.Transaction_count) rows

/-! ## pandas float semantics for the derived ratios -/

/-- A pandas/NumPy float as far as the derived-ratio claims need it: an
exact rational or one of the special values.  For rational operands the
zero/infinity/NaN classification of a float division is exact, so nothing
is lost by keeping the finite values as rationals. -/
inductive PFloat where
  | val (q : Rat)
  | posInf
  | negInf
  | nan
deriving DecidableEq

/-- pandas column division: `a / 0` is NaN for `a = 0`, plus or minus
infinity for nonzero `a` (IEEE-754 / NumPy behaviour, which pandas
inherits); otherwise the exact quotient. -/
def pdiv (a b : Rat) : PFloat :=
  if b = 0 then
    (if a = 0 then PFloat.nan else if 0 < a then PFloat.posInf else PFloat.negInf)
  else PFloat.val (a / b)

/-- Embeds `Series.fillna(0)`: replaces NaN -- and only NaN -- by 0.  Infinities
are not missing values and pass through. -/
def fillna0 : PFloat → PFloat
  | PFloat.nan => PFloat.val 0
  | x => x

/-- Embeds `expansion_summary` (src/app1.py lines 494-497): `map_transaction`
rows of the selected period grouped by state, amount and count summed. -/
def expansion_summary (rows : List MapTxRow) : List (List Char × Rat × Rat) :=
  groupAgg2 (fun r => r.State) (fun r => r.Transaction_amount)
    (fun r => r.Transaction_count) rows

/-- The `Growth_Score` column (src/app1.py lines 517-519):
`Transaction_amount / Transaction_count`, then `.fillna(0)`. -/
def growth_score (rows : List MapTxRow) : List (List Char × PFloat) :=
  (expansion_summary rows).map fun t => (t.1, fillna0 (pdiv t.2.1 t.2.2))

/-- Embeds `user_summary` (src/app1.py lines 552-555): `map_user` rows of the
selected period grouped by state, registered users and app opens summed. -/
def user_summary (rows : List MapUserRow) : List (List Char × Rat × Rat) :=
  groupAgg2 (fun r => r.State) (fun r => r.RegisteredUsers)
    (fun r => r.AppOpens) rows

/-- The `Engagement_Rate` column (src/app1.py lines 575-577):
`AppOpens / RegisteredUsers`, then `.fillna(0)`. -/
def engagement_rate (rows : List MapUserRow) : List (List Char × PFloat) :=
  (user_summary rows).map fun t => (t.1, fillna0 (pdiv t.2.2 t.2.1))

/-! ## Top-N ranking (`DataFrame.nlargest`) -/

/-- Insert a row into a descending-sorted list, in front of the first row
whose column value it reaches or exceeds.  Used right-to-left over the
input this realizes the stable descending sort that pandas documents for
`nlargest(n, col)` with the default `keep="first"`. -/
def insertDesc {α : Type} (col : α → Rat) (a : α) : List α → List α
  | [] => [a]
  | x :: xs => if col x ≤ col a then a :: x :: xs else x :: insertDesc col a xs

/-- Stable descending sort by a column. -/
def sortDesc {α : Type} (col : α → Rat) : List α → List α
  | [] => []
  | x :: xs => insertDesc col x (sortDesc col xs)

/-- Embeds `df.nlargest(n, col)` with `keep="first"`: the first `n` rows of the
stable descending sort by `col`. -/
def nlargest {α : Type} (n : Nat) (col : α → Rat) (rows : List α) : List α :=
  (sortDesc col rows).take n

/-- The `n` arguments of the `nlargest` calls in src/app1.py, in source
order: lines 339, 354, 389, 407, 521, 579. -/
def nlargest_call_sites : List Nat := [10, 5, 8, 10, 10, 10]

/-- Embeds `top_states` (src/app1.py line 339): top 10 state summaries by
transaction amount. -/
def top_states (s : List (List Char × Rat × Rat)) : List (List Char × Rat × Rat) :=
  nlargest 10 (fun t => t.2.1) s

/-- Embeds `payment_summary` (src/app1.py line 354): transaction counts grouped
by payment type, top 5. -/
def payment_summary (rows : List TxRow) : List (List Char × Rat) :=
  nlargest 5 (fun t => t.2)
    (groupAgg1 (fun r => r.Transaction_type) (fun r => r.Transaction_count) rows)

/-! ## Chart builders -/

structure ChoroplethSpec where
  locations : List (List Char)
  z : List Rat
deriving DecidableEq

/-- Embeds `create_choropleth_map` (src/app1.py lines 124-155): `None` (after a
warning) on an empty frame, otherwise a chart description fed by the
`State` column and the selected value column. -/
def create_choropleth_map {α : Type} (stateOf : α → List Char) (valOf : α → Rat)
    (df : List α) : Option ChoroplethSpec :=
  if df.isEmpty then none
  else some ⟨df.map stateOf, df.map valOf⟩

structure PieSpec where
  values : List Rat
  names : List (List Char)
deriving DecidableEq

/-- Embeds `create_pie_chart` (src/app1.py lines 157-165). -/
def create_pie_chart {α : Type} (valuesOf : α → Rat) (namesOf : α → List Char)
    (df : List α) : Option PieSpec :=
  if df.isEmpty then none
  else some ⟨df.map valuesOf, df.map namesOf⟩

structure BarSpec where
  x : List (List Char)
  y : List Rat
deriving DecidableEq

/-- Embeds `create_bar_chart` (src/app1.py lines 167-176). -/
def create_bar_chart {α : Type} (xOf : α → List Char) (yOf : α → Rat)
    (df : List α) : Option BarSpec :=
  if df.isEmpty then none
  else some ⟨df.map xOf, df.map yOf⟩

/-! ## The table loader (`load_table_data`, whole-table view) -/

/-- A row as it comes back from `pd.read_sql`; only the `States` column is
ever rewritten by the loader, so the remaining columns are summarized by
the year/quarter pair.  A `none` in `States` is a non-string cell. -/
structure DBRow where
  States : Option (List Char)
  Years : Int
  Quarter : Int
deriving DecidableEq

/-- The outcome of the engine lookup plus the query
(src/app1.py lines 69-75): the engine may be unavailable
(`get_database_engine` returned `None` after reporting the connection
error, lines 26-31), the query itself may raise (unreachable source or
absent table, caught at lines 93-95), or a frame comes back, with or
without a `States` column. -/
inductive TableFetch where
  | engineUnavailable
  | queryFailed
  | ok (hasStates : Bool) (rows : List DBRow)
deriving DecidableEq

def isFetchFailure : TableFetch → Bool
  | TableFetch.engineUnavailable => true
  | TableFetch.queryFailed => true
  | TableFetch.ok _ _ => false

/-- What the caller observes: the returned frame and whether an error was
surfaced to the user (via `st.error`) along the way. -/
structure LoadResult where
  df : List DBRow
  errorReported : Bool
deriving DecidableEq

/-- Embeds `load_table_data` (src/app1.py lines 66-95).  Every branch returns: a
failed engine lookup and a failed query both yield an empty frame with the
error reported; a successful fetch yields the frame with the `States`
column normalized (when present). -/
def load_table_data : TableFetch → LoadResult
  | TableFetch.engineUnavailable => ⟨[], true⟩
  | TableFetch.queryFailed => ⟨[], true⟩
  | TableFetch.ok hasStates rows =>
      ⟨rows.map fun r =>
        if hasStates then ⟨tableCell r.States, r.Years, r.Quarter⟩ else r, false⟩

/-! ## The GeoJSON loader (`load_geojson_data`) -/

def NAME_1_key : List Char := ("NAME_1".toList)

def State_Name_key : List Char := ("State_Name".toList)

/-- Lookup in a Python dict modelled as an association list. -/
def lookupProp (k : List Char) : List (List Char × PyVal) → Option PyVal
  | [] => none
  | (k2, v) :: rest => if k2 = k then some v else lookupProp k rest

/-- Python dict assignment: replace in place when the key exists,
append otherwise. -/
def setProp (k : List Char) (v : PyVal) : List (List Char × PyVal) → List (List Char × PyVal)
  | [] => [(k, v)]
  | (k2, v2) :: rest => if k2 = k then (k, v) :: rest else (k2, v2) :: setProp k v rest

/-- A GeoJSON feature as read from the file: its `properties` dict, which
may be absent altogether.  The geometry plays no role in the claims. -/
structure FeatureIn where
  props : Option (List (List Char × PyVal))
deriving DecidableEq

/-- Embeds `feature["properties"].get("NAME_1", "")` after the
`"properties" not in feature` repair (src/app1.py lines 45-48). -/
def rawName1 (f : FeatureIn) : PyVal :=
  (lookupProp NAME_1_key (f.props.getD [])).getD (PyVal.str [])

/-- The per-feature processing of `load_geojson_data`
(src/app1.py lines 44-59): store the standardized `State_Name` into the
properties dict. -/
def processFeature (f : FeatureIn) : List (List Char × PyVal) :=
  setProp State_Name_key (PyVal.str (geoStateName (rawName1 f))) (f.props.getD [])

/-- Embeds `load_geojson_data` (src/app1.py lines 37-64), seen through the
properties dicts of the returned features: on a load failure the function
returns the empty `FeatureCollection` (line 64). -/
def load_geojson_data : Option (List FeatureIn) → List (List (List Char × PyVal))
  | none => []
  | some fs => fs.map processFeature

end Phonepe

namespace Phonepe

/-! ## Idempotence of the normalization primitives -/

theorem toNat_ofNat_valid (n : Nat) (h : n < 55296) : (Char.ofNat n).toNat = n := by
  rw [Char.ofNat, dif_pos (Or.inl (by omega : n < 55296))]
  rfl

theorem toLower_toNat (c : Char) :
    (Char.toLower c).toNat = if 65 ≤ c.toNat ∧ c.toNat ≤ 90 then c.toNat + 32 else c.toNat := by
  rw [Char.toLower]
  by_cases h : 65 ≤ c.toNat ∧ c.toNat ≤ 90
  · simp only [h, if_true, ge_iff_le, if_pos (And.intro h.1 h.2)]
    exact toNat_ofNat_valid _ (by omega)
  · simp only [h, if_false, ge_iff_le]

theorem toLower_idem (c : Char) : Char.toLower (Char.toLower c) = Char.toLower c := by
  by_cases h : 65 ≤ c.toNat ∧ c.toNat ≤ 90
  · have h1 : (Char.toLower c).toNat = c.toNat + 32 := by rw [toLower_toNat, if_pos h]
    rw [Char.toLower]
    rw [if_neg]
    omega
  · have h1 : Char.toLower c = c := by
      rw [Char.toLower, if_neg]
      intro hc; exact h ⟨hc.1, hc.2⟩
    rw [h1, h1]

theorem pyLower_idem (s : List Char) : pyLower (pyLower s) = pyLower s := by
  simp only [pyLower, List.map_map]
  exact List.map_eq_map_iff.mpr (fun c _ => toLower_idem c)

/-- Lowercasing never changes whether a character is whitespace. -/
theorem pyIsSpace_toLower (c : Char) : pyIsSpace (Char.toLower c) = pyIsSpace c := by
  have h := toLower_toNat c
  simp only [pyIsSpace]
  by_cases hc : 65 ≤ c.toNat ∧ c.toNat ≤ 90
  · rw [if_pos hc] at h
    rw [h, Bool.eq_iff_iff]
    simp only [Bool.or_eq_true, decide_eq_true_eq]
    omega
  · rw [if_neg hc] at h
    rw [h]

theorem pyIsSpace_comp_toLower : (pyIsSpace ∘ Char.toLower) = pyIsSpace :=
  funext pyIsSpace_toLower

theorem lstripCh_pyLower (s : List Char) : lstripCh (pyLower s) = pyLower (lstripCh s) := by
  simp only [lstripCh, pyLower]
  rw [List.dropWhile_map, pyIsSpace_comp_toLower]

theorem rstripCh_pyLower (s : List Char) : rstripCh (pyLower s) = pyLower (rstripCh s) := by
  simp only [rstripCh, pyLower]
  rw [← List.map_reverse, List.dropWhile_map, pyIsSpace_comp_toLower, List.map_reverse]

theorem pyStrip_pyLower (s : List Char) : pyStrip (pyLower s) = pyLower (pyStrip s) := by
  rw [pyStrip, pyStrip, lstripCh_pyLower, rstripCh_pyLower]

theorem lstripCh_idem (s : List Char) : lstripCh (lstripCh s) = lstripCh s :=
  List.dropWhile_idempotent pyIsSpace s

theorem rstripCh_idem (s : List Char) : rstripCh (rstripCh s) = rstripCh s := by
  simp only [rstripCh, List.reverse_reverse]
  rw [List.dropWhile_idempotent]

/-- A list that starts with a non-whitespace character (equivalently, is a
fixpoint of `lstripCh`) stays a fixpoint on any left factor. -/
theorem lstripCh_left_factor (l₁ l₂ : List Char) (h : lstripCh (l₁ ++ l₂) = l₁ ++ l₂) :
    lstripCh l₁ = l₁ := by
  cases l₁ with
  | nil => rfl
  | cons a as =>
    simp only [lstripCh, List.cons_append] at h ⊢
    have hpa : pyIsSpace a = false := by
      by_contra hpa
      rw [Bool.not_eq_false] at hpa
      rw [List.dropWhile_cons, if_pos hpa] at h
      have h3 : (List.dropWhile pyIsSpace (as ++ l₂)).length ≤ (as ++ l₂).length :=
        ((List.dropWhile_suffix pyIsSpace).sublist).length_le
      rw [h] at h3
      simp only [List.length_cons, List.length_append] at h3
      omega
    simp [List.dropWhile_cons, hpa]

/-- Shows `rstripCh l` is a left factor of `l`. -/
theorem rstripCh_decomp (l : List Char) : ∃ l₂, l = rstripCh l ++ l₂ := by
  refine ⟨(l.reverse.takeWhile pyIsSpace).reverse, ?_⟩
  rw [rstripCh, ← List.reverse_append, List.takeWhile_append_dropWhile, List.reverse_reverse]

theorem pyStrip_idem (s : List Char) : pyStrip (pyStrip s) = pyStrip s := by
  rw [pyStrip, pyStrip]
  obtain ⟨l₂, hdec⟩ := rstripCh_decomp (lstripCh s)
  have h1 : lstripCh (rstripCh (lstripCh s)) = rstripCh (lstripCh s) := by
    apply lstripCh_left_factor _ l₂
    rw [← hdec]
    exact lstripCh_idem s
  rw [h1, rstripCh_idem]

theorem lowerStrip_idem (s : List Char) : lowerStrip (lowerStrip s) = lowerStrip s := by
  simp only [lowerStrip]
  rw [pyStrip_pyLower, pyStrip_idem, ← pyStrip_pyLower, pyLower_idem]

theorem tableKey_idem (s : List Char) : tableKey (tableKey s) = tableKey s := by
  have hu : lowerStrip (lowerStrip s) = lowerStrip s := lowerStrip_idem s
  unfold tableKey
  set u := lowerStrip s with hudef
  by_cases h1 : u = ("andaman and nicobar".toList)
  · rw [h1]
    decide
  · by_cases h2 : u = ("dadra and nagar haveli and daman and diu".toList)
    · rw [h2]
      decide
    · by_cases h3 : u = ("orissa".toList)
      · rw [h3]
        decide
      · have happ : state_mappings_apply u = u := by
          unfold state_mappings_apply
          rw [if_neg h1, if_neg h2, if_neg h3]
        rw [happ, hu, happ]

theorem geoKey_idem (s : List Char) : geoKey (geoKey s) = geoKey s := by
  have hu : lowerStrip (lowerStrip s) = lowerStrip s := lowerStrip_idem s
  unfold geoKey
  set u := lowerStrip s with hudef
  by_cases h1 : u = ("orissa".toList)
  · rw [h1]
    decide
  · have happ : odishaFix u = u := by
      unfold odishaFix
      rw [if_neg h1]
    rw [happ, hu, happ]

/-! ## Theorems: the canonicalization claims -/

/-- Claim C4: the name canonicalization is idempotent on both the tabular
path (`tableKey`, also lifted to whole cells by `tableCell`) and the
boundary-geometry path (`geoKey`, also as the full `State_Name` computation
`geoStateName`); in particular no rewrite target ("odisha",
"andaman & nicobar islands", "dadra & nagar haveli & daman & diu") is
itself a rewrite source. -/
theorem canonicalize_idem :
    (∀ s, tableKey (tableKey s) = tableKey s) ∧
    (∀ s, geoKey (geoKey s) = geoKey s) ∧
    (∀ v, tableCell (tableCell v) = tableCell v) ∧
    (∀ v, geoStateName (PyVal.str (geoStateName v)) = geoStateName v) ∧
    tableKey ("odisha".toList) = ("odisha".toList) ∧
    tableKey ("andaman & nicobar islands".toList) = ("andaman & nicobar islands".toList) ∧
    tableKey ("dadra & nagar haveli & daman & diu".toList) =
      ("dadra & nagar haveli & daman & diu".toList) ∧
    geoKey ("odisha".toList) = ("odisha".toList) := by
  refine ⟨tableKey_idem, geoKey_idem, ?_, ?_, by decide, by decide, by decide, by decide⟩
  · intro v
    cases v with
    | none => rfl
    | some s => exact congrArg some (tableKey_idem s)
  · intro v
    cases v with
    | str s => exact geoKey_idem s
    | nonStr => decide

/-! ## Theorems: concrete canonicalization claims -/

/-- Claim C9: the name canonicalization maps the historical name
"Orissa" -- including case and surrounding-whitespace variants such as
"  ORISSA " -- to the canonical key "odisha", on both the tabular path
(`tableKey`) and the boundary-geometry path (`geoKey`). -/
theorem orissa_both_paths :
    tableKey ("Orissa".toList) = ("odisha".toList) ∧
    tableKey ("  ORISSA ".toList) = ("odisha".toList) ∧
    geoKey ("Orissa".toList) = ("odisha".toList) ∧
    geoKey ("  ORISSA ".toList) = ("odisha".toList) := by
  decide

/-- Claim C2, counterexample: the claim says the raw names
"Andaman and Nicobar" and "andaman & nicobar islands" canonicalize to the
same Geo Key on BOTH normalization paths; on the boundary-geometry path
(`load_geojson_data`, which applies only lowercasing, stripping and the
Odisha fix) the two names map to different keys. -/
theorem andaman_geo_path_differs :
    geoKey ("Andaman and Nicobar".toList) ≠ geoKey ("andaman & nicobar islands".toList) := by
  decide

/-- Claim C2, amended: on the tabular path (`load_table_data`) both surface
forms map to the key "andaman & nicobar islands"; the boundary-geometry path
applies only lowercase/strip and the Odisha fix, so there
"Andaman and Nicobar" maps to "andaman and nicobar" while
"andaman & nicobar islands" maps to itself, and the two paths disagree. -/
theorem andaman_keys_by_path :
    tableKey ("Andaman and Nicobar".toList) = ("andaman & nicobar islands".toList) ∧
    tableKey ("andaman & nicobar islands".toList) = ("andaman & nicobar islands".toList) ∧
    geoKey ("Andaman and Nicobar".toList) = ("andaman and nicobar".toList) ∧
    geoKey ("andaman & nicobar islands".toList) = ("andaman & nicobar islands".toList) := by
  decide

/-- Claim C3, counterexample: the claim says a non-string (null/missing)
input canonicalizes to the empty string on BOTH paths; on the tabular path
a non-string cell comes out of `.str.lower().str.strip()` as NaN and
`Series.replace` keeps it, so the result is a missing value (`none`),
not the empty string. -/
theorem tabular_nonstring_not_empty :
    tableCell none ≠ some ([] : List Char) := by
  decide

/-- Claim C3, amended: a non-string (null/missing) input canonicalizes to
the empty string on the boundary-geometry path, but to a missing value
(NaN, modelled `none`) on the tabular path. -/
theorem nonstring_canonical_keys :
    geoStateName PyVal.nonStr = ([] : List Char) ∧
    tableCell none = none := by
  decide

/-! ## Sum preservation of grouping and aggregation -/

/-- Splitting a column sum along a Boolean predicate. -/
theorem sumCol_filter_add {α : Type} (p : α → Bool) (col : α → Rat) (l : List α) :
    sumCol col (l.filter p) + sumCol col (l.filter fun a => !(p a)) = sumCol col l := by
  induction l with
  | nil => simp [sumCol]
  | cons x xs ih =>
    by_cases hx : p x = true
    · simp only [List.filter_cons, hx, if_true, Bool.not_true, Bool.false_eq_true, if_false,
        sumCol, List.map_cons, List.sum_cons] at ih ⊢
      rw [← ih]
      ring
    · rw [Bool.not_eq_true] at hx
      simp only [List.filter_cons, hx, Bool.false_eq_true, if_false, Bool.not_false, if_true,
        sumCol, List.map_cons, List.sum_cons] at ih ⊢
      rw [← ih]
      ring

/-- Summing the per-group sums over any duplicate-free list of keys that
covers every row recovers the total column sum. -/
theorem groupSum_eq {α κ : Type} [DecidableEq κ] (key : α → κ) (col : α → Rat)
    (ks : List κ) (rows : List α) :
    ks.Nodup → (∀ r ∈ rows, key r ∈ ks) →
    (ks.map fun k => sumCol col (rows.filter fun r => decide (key r = k))).sum
      = sumCol col rows := by
  induction ks generalizing rows with
  | nil =>
    intro _ hcov
    cases rows with
    | nil => simp [sumCol]
    | cons r rs => exact absurd (hcov r (List.mem_cons_self r rs)) (List.not_mem_nil _)
  | cons k ks ih =>
    intro hnd hcov
    have hknot : k ∉ ks := (List.nodup_cons.mp hnd).1
    have hnd2 : ks.Nodup := (List.nodup_cons.mp hnd).2
    rw [List.map_cons, List.sum_cons]
    have hmap : (ks.map fun k2 => sumCol col (rows.filter fun r => decide (key r = k2)))
        = ks.map fun k2 =>
            sumCol col ((rows.filter fun r => !(decide (key r = k))).filter
              fun r => decide (key r = k2)) := by
      apply List.map_eq_map_iff.mpr
      intro k2 hk2
      congr 1
      rw [List.filter_filter]
      apply List.filter_congr
      intro r _
      by_cases hreq : key r = k2
      · simp [hreq]
        exact fun hc => hknot (hc ▸ hk2)
      · simp [hreq]
    rw [hmap, ih _ hnd2 ?_]
    · exact sumCol_filter_add (fun r => decide (key r = k)) col rows
    · intro r hr
      have hr2 := List.mem_filter.mp hr
      rcases List.mem_cons.mp (hcov r hr2.1) with h1 | h2
      · exact absurd (decide_eq_true h1) (by simpa using hr2.2)
      · exact h2

/-- Claim C5: grouping-and-aggregating never double-counts or drops a row:
for every row set, grouping key and pair of sum-reduced numeric columns,
the sum of each reduced column over the aggregated rows equals its sum
over the input rows; in particular this holds for `state_summary` over the
(year, quarter)-filtered transaction rows. -/
theorem groupAgg_sum_preserved :
    (∀ (α κ : Type) [DecidableEq κ] (key : α → κ) (c1 c2 : α → Rat) (rows : List α),
      ((groupAgg2 key c1 c2 rows).map fun t => t.2.1).sum = sumCol c1 rows ∧
      ((groupAgg2 key c1 c2 rows).map fun t => t.2.2).sum = sumCol c2 rows) ∧
    (∀ (rows : List TxRow) (y q : Int),
      ((state_summary (filtered_data rows y q)).map fun t => t.2.1).sum
        = sumCol (fun r => r.Transaction_amount) (filtered_data rows y q) ∧
      ((state_summary (filtered_data rows y q)).map fun t => t.2.2).sum
        = sumCol (fun r => r.Transaction_count) (filtered_data rows y q)) := by
  have hgen : ∀ (α κ : Type) [DecidableEq κ] (key : α → κ) (c1 c2 : α → Rat)
      (rows : List α),
      ((groupAgg2 key c1 c2 rows).map fun t => t.2.1).sum = sumCol c1 rows ∧
      ((groupAgg2 key c1 c2 rows).map fun t => t.2.2).sum = sumCol c2 rows := by
    intro α κ inst key c1 c2 rows
    have hnd : (distinctKeys key rows).Nodup := List.nodup_dedup _
    have hcov : ∀ r ∈ rows, key r ∈ distinctKeys key rows := fun r hr =>
      List.mem_dedup.mpr (List.mem_map_of_mem key hr)
    constructor
    · rw [groupAgg2, List.map_map]
      exact groupSum_eq key c1 (distinctKeys key rows) rows hnd hcov
    · rw [groupAgg2, List.map_map]
      exact groupSum_eq key c2 (distinctKeys key rows) rows hnd hcov
  exact ⟨hgen, fun rows y q => hgen _ _ _ _ _ _⟩

/-! ## The derived-ratio columns -/

/-- Claim C1 is violated by the code: with nonnegative inputs whose
denominator sums to 0 while the numerator sums to a positive value, the
division yields positive infinity, and `.fillna(0)` does not touch it --
only the NaN arising from 0/0 becomes 0.  This theorem evaluates both
ratio pipelines at such an input: `Growth_Score` and `Engagement_Rate`
come out as `posInf`, not 0. -/
theorem growth_engagement_div_zero_bug :
    growth_score [⟨("kerala".toList), 2023, 1, 0, 5⟩]
      = [(("kerala".toList), PFloat.posInf)] ∧
    engagement_rate [⟨("kerala".toList), ("kochi".toList), 2023, 1, 0, 7⟩]
      = [(("kerala".toList), PFloat.posInf)] ∧
    PFloat.posInf ≠ PFloat.val 0 ∧
    fillna0 (pdiv 0 0) = PFloat.val 0 := by
  refine ⟨?_, ?_, by decide, by norm_num [pdiv, fillna0]⟩
  · norm_num [growth_score, expansion_summary, groupAgg2, distinctKeys, sumCol, pdiv, fillna0]
  · norm_num [engagement_rate, user_summary, groupAgg2, distinctKeys, sumCol, pdiv, fillna0]

/-! ## Empty filter results and chart sentinels -/

/-- Claim C7: filtering on a (year, quarter) pair matched by no row gives
the empty row set (no exception: the embedded operations are total
functions); aggregating it gives the empty summary, and every chart
builder returns the `None` sentinel on an empty frame. -/
theorem empty_filter_no_error (rows : List TxRow) (y q : Int)
    (h : ∀ r ∈ rows, ¬(r.Years = y ∧ r.Quarter = q)) :
    filtered_data rows y q = [] ∧
    state_summary (filtered_data rows y q) = [] ∧
    create_choropleth_map (fun t => t.1) (fun t => t.2.1)
      (state_summary (filtered_data rows y q)) = none ∧
    (∀ (β : Type) (v : β → Rat) (nm : β → List Char),
      create_pie_chart v nm ([] : List β) = none) ∧
    (∀ (β : Type) (xs : β → List Char) (ys : β → Rat),
      create_bar_chart xs ys ([] : List β) = none) := by
  have h0 : filtered_data rows y q = [] := by
    rw [filtered_data, List.filter_eq_nil_iff]
    intro r hr
    simpa using h r hr
  rw [h0]
  exact ⟨rfl, rfl, rfl, fun β v nm => rfl, fun β xs ys => rfl⟩

/-- Witness for C7 at a concrete input: one 2023-Q1 row, filtered at the
absent pair (2099, 1). -/
theorem empty_filter_no_error_witness :
    (∀ r ∈ ([⟨("kerala".toList), 2023, 1, ("recharge".toList), 2, 10⟩] : List TxRow),
      ¬(r.Years = (2099 : Int) ∧ r.Quarter = (1 : Int))) ∧
    (filtered_data [⟨("kerala".toList), 2023, 1, ("recharge".toList), 2, 10⟩] 2099 1 = [] ∧
     state_summary (filtered_data
       [⟨("kerala".toList), 2023, 1, ("recharge".toList), 2, 10⟩] 2099 1) = [] ∧
     create_choropleth_map (fun t => t.1) (fun t => t.2.1)
       (state_summary (filtered_data
         [⟨("kerala".toList), 2023, 1, ("recharge".toList), 2, 10⟩] 2099 1)) = none ∧
     (∀ (β : Type) (v : β → Rat) (nm : β → List Char),
       create_pie_chart v nm ([] : List β) = none) ∧
     (∀ (β : Type) (xs : β → List Char) (ys : β → Rat),
       create_bar_chart xs ys ([] : List β) = none)) :=
  ⟨by decide, empty_filter_no_error _ 2099 1 (by decide)⟩

/-! ## The table loader on failing sources -/

/-- Claim C8: whenever the engine is unavailable or the query fails (the
source is unreachable or the table absent), `load_table_data` returns an
empty row set with the error reported; the embedding is a total function,
there is no uncaught exceptional exit. -/
theorem load_table_data_failure (fetch : TableFetch)
    (h : isFetchFailure fetch = true) :
    (load_table_data fetch).df = [] ∧ (load_table_data fetch).errorReported = true := by
  cases fetch with
  | engineUnavailable => exact ⟨rfl, rfl⟩
  | queryFailed => exact ⟨rfl, rfl⟩
  | ok hs rows => simp [isFetchFailure] at h

/-- Witness for C8 at the concrete failing fetch outcomes. -/
theorem load_table_data_failure_witness :
    isFetchFailure TableFetch.queryFailed = true ∧
    (load_table_data TableFetch.queryFailed).df = [] ∧
    (load_table_data TableFetch.queryFailed).errorReported = true :=
  ⟨by decide, load_table_data_failure TableFetch.queryFailed (by decide)⟩

/-! ## The GeoJSON loader invariant -/

/-- Writing a key into a dict makes it readable back. -/
theorem lookupProp_setProp (k : List Char) (v : PyVal)
    (l : List (List Char × PyVal)) :
    lookupProp k (setProp k v l) = some v := by
  induction l with
  | nil => simp [setProp, lookupProp]
  | cons p rest ih =>
    obtain ⟨k2, v2⟩ := p
    rw [setProp]
    by_cases hk : k2 = k
    · rw [if_pos hk, lookupProp, if_pos rfl]
    · rw [if_neg hk, lookupProp, if_neg hk]
      exact ih

/-- Claim C10: every feature returned by `load_geojson_data` carries a
`State_Name` property whose value is a string, namely the
lowercased/stripped/Odisha-corrected `NAME_1` when that property is a
string and the empty string otherwise (`geoStateName` of the raw value,
where an absent properties dict or absent `NAME_1` defaults to the empty
string); on a load failure the returned feature collection is empty, so
the invariant holds vacuously. -/
theorem load_geojson_state_name_invariant :
    (∀ fs, load_geojson_data (some fs) = fs.map processFeature) ∧
    (∀ f : FeatureIn,
      lookupProp State_Name_key (processFeature f)
        = some (PyVal.str (geoStateName (rawName1 f)))) ∧
    load_geojson_data none = [] := by
  refine ⟨fun fs => rfl, ?_, rfl⟩
  intro f
  rw [processFeature, lookupProp_setProp]

/-! ## Top-N ranking: sortedness, length and stability -/

theorem mem_insertDesc {α : Type} (col : α → Rat) (a x : α) (l : List α) :
    x ∈ insertDesc col a l ↔ x = a ∨ x ∈ l := by
  induction l with
  | nil => simp [insertDesc]
  | cons b bs ih =>
    rw [insertDesc]
    by_cases hb : col b ≤ col a
    · simp only [if_pos hb, List.mem_cons]
    · simp only [if_neg hb, List.mem_cons, ih]
      tauto

theorem pairwise_insertDesc {α : Type} (col : α → Rat) (a : α) (l : List α)
    (hl : l.Pairwise fun x y => col y ≤ col x) :
    (insertDesc col a l).Pairwise fun x y => col y ≤ col x := by
  induction l with
  | nil => simp [insertDesc]
  | cons b bs ih =>
    rcases List.pairwise_cons.mp hl with ⟨hb, hbs⟩
    rw [insertDesc]
    by_cases hba : col b ≤ col a
    · rw [if_pos hba]
      apply List.pairwise_cons.mpr
      refine ⟨?_, hl⟩
      intro y hy
      rcases List.mem_cons.mp hy with h1 | h2
      · rw [h1]; exact hba
      · exact le_trans (hb y h2) hba
    · rw [if_neg hba]
      apply List.pairwise_cons.mpr
      refine ⟨?_, ih hbs⟩
      intro y hy
      rcases (mem_insertDesc col a y bs).mp hy with h1 | h2
      · rw [h1]; exact le_of_lt (lt_of_not_le hba)
      · exact hb y h2

theorem length_insertDesc {α : Type} (col : α → Rat) (a : α) (l : List α) :
    (insertDesc col a l).length = l.length + 1 := by
  induction l with
  | nil => rfl
  | cons b bs ih =>
    rw [insertDesc]
    by_cases hba : col b ≤ col a
    · rw [if_pos hba]
      rfl
    · rw [if_neg hba, List.length_cons, ih, List.length_cons]

theorem length_sortDesc {α : Type} (col : α → Rat) (l : List α) :
    (sortDesc col l).length = l.length := by
  induction l with
  | nil => rfl
  | cons b bs ih =>
    rw [sortDesc, length_insertDesc, ih, List.length_cons]

theorem pairwise_sortDesc {α : Type} (col : α → Rat) (l : List α) :
    (sortDesc col l).Pairwise fun x y => col y ≤ col x := by
  induction l with
  | nil => exact List.Pairwise.nil
  | cons b bs ih => exact pairwise_insertDesc col b _ ih

/-- Inserting a row whose column value is not `v` does not disturb the
rows with value `v`. -/
theorem filter_insertDesc_ne {α : Type} (col : α → Rat) (v : Rat) (a : α)
    (l : List α) (ha : ¬(col a = v)) :
    (insertDesc col a l).filter (fun r => decide (col r = v))
      = l.filter (fun r => decide (col r = v)) := by
  induction l with
  | nil => simp [insertDesc, ha]
  | cons b bs ih =>
    rw [insertDesc]
    by_cases hba : col b ≤ col a
    · rw [if_pos hba, List.filter_cons, if_neg (by simpa using ha)]
    · rw [if_neg hba, List.filter_cons, List.filter_cons, ih]

/-- Inserting a row with column value `v` into a descending-sorted list
puts it in front of the other rows with value `v` (the inserted row stands
for the earliest input row among equals). -/
theorem filter_insertDesc_eq {α : Type} (col : α → Rat) (v : Rat) (a : α)
    (l : List α) (hl : l.Pairwise fun x y => col y ≤ col x) (ha : col a = v) :
    (insertDesc col a l).filter (fun r => decide (col r = v))
      = a :: l.filter (fun r => decide (col r = v)) := by
  induction l with
  | nil => simp [insertDesc, ha]
  | cons b bs ih =>
    rcases List.pairwise_cons.mp hl with ⟨hb, hbs⟩
    rw [insertDesc]
    by_cases hba : col b ≤ col a
    · rw [if_pos hba, List.filter_cons, if_pos (by simpa using ha)]
    · rw [if_neg hba]
      have hbne : ¬(col b = v) := by
        intro hbv
        exact hba (by rw [hbv, ← ha])
      rw [List.filter_cons, if_neg (by simpa using hbne), List.filter_cons,
        if_neg (by simpa using hbne)]
      exact ih hbs

/-- Stability of the descending sort: the subsequence of rows with any
fixed column value is exactly the corresponding subsequence of the input,
in input order. -/
theorem filter_sortDesc {α : Type} (col : α → Rat) (v : Rat) (l : List α) :
    (sortDesc col l).filter (fun r => decide (col r = v))
      = l.filter (fun r => decide (col r = v)) := by
  induction l with
  | nil => rfl
  | cons b bs ih =>
    rw [sortDesc]
    by_cases hb : col b = v
    · rw [filter_insertDesc_eq col v b _ (pairwise_sortDesc col bs) hb, ih,
        List.filter_cons, if_pos (by simpa using hb)]
    · rw [filter_insertDesc_ne col v b _ hb, ih, List.filter_cons,
        if_neg (by simpa using hb)]

/-- Claim C6: for every row set and every N at most the number of rows of
the (grouped) ranking input, `nlargest` returns exactly N rows, sorted
descending by the ranking column, with ties kept in original row order
(for every value v, the returned rows with column value v form an initial
segment of the input rows with value v, in input order); the `nlargest`
call sites in src/app1.py all use N in {5, 8, 10}. -/
theorem nlargest_spec {α : Type} (col : α → Rat) (n : Nat) (rows : List α)
    (hn : n ≤ rows.length) :
    (nlargest n col rows).length = n ∧
    (nlargest n col rows).Pairwise (fun a b => col b ≤ col a) ∧
    (∀ v : Rat, ∃ rest,
      (nlargest n col rows).filter (fun r => decide (col r = v)) ++ rest
        = rows.filter (fun r => decide (col r = v))) ∧
    (∀ m ∈ nlargest_call_sites, m = 5 ∨ m = 8 ∨ m = 10) := by
  refine ⟨?_, ?_, ?_, by decide⟩
  · rw [nlargest, List.length_take, length_sortDesc]
    exact Nat.min_eq_left hn
  · exact (pairwise_sortDesc col rows).take
  · intro v
    refine ⟨(List.drop n (sortDesc col rows)).filter (fun r => decide (col r = v)), ?_⟩
    rw [nlargest, ← List.filter_append, List.take_append_drop, filter_sortDesc]

/-- Witness for C6 at a concrete input: four rows with a tie on the
ranking column, N = 2. -/
theorem nlargest_spec_witness :
    (2 ≤ ([((1 : Rat), (5 : Rat)), (2, 7), (3, 5), (4, 1)] : List (Rat × Rat)).length) ∧
    ((nlargest 2 (fun t => t.2) [((1 : Rat), (5 : Rat)), (2, 7), (3, 5), (4, 1)]).length = 2 ∧
     (nlargest 2 (fun t => t.2)
       [((1 : Rat), (5 : Rat)), (2, 7), (3, 5), (4, 1)]).Pairwise
         (fun a b => (fun t : Rat × Rat => t.2) b ≤ (fun t : Rat × Rat => t.2) a) ∧
     (∀ v : Rat, ∃ rest,
       (nlargest 2 (fun t => t.2)
         [((1 : Rat), (5 : Rat)), (2, 7), (3, 5), (4, 1)]).filter
           (fun r => decide ((fun t : Rat × Rat => t.2) r = v)) ++ rest
         = ([((1 : Rat), (5 : Rat)), (2, 7), (3, 5), (4, 1)] : List (Rat × Rat)).filter
             (fun r => decide ((fun t : Rat × Rat => t.2) r = v))) ∧
     (∀ m ∈ nlargest_call_sites, m = 5 ∨ m = 8 ∨ m = 10)) :=
  ⟨by decide, nlargest_spec (fun t => t.2) 2
    [((1 : Rat), (5 : Rat)), (2, 7), (3, 5), (4, 1)] (by decide)⟩

end Phonepe
